import Mathlib

/-!
Shallow embedding of the instruction-decoding layer and position ledger / PnL
engine of the `orca-so/profitability-analysis` repository
(`src/analyze-position.ts`, `src/decode-transaction.ts`, `src/price-fetcher.ts`,
`src/globals.ts`), together with theorems settling the frozen claims about it.

Modelling conventions:
* `Decimal` (decimal.js) values are modelled as exact rationals `ℚ`.
* `BN` (bn.js) big integers are modelled as `Int`.
* `PublicKey` / mint / signature values are modelled as `String` (the code keys
  all of its maps by `toString()` renderings).
* TypeScript `ReadonlyMap<string, T>.get` is modelled as a function
  `String → Option T`.
* `invariant(cond, msg)` (tiny-invariant), which throws on a falsy condition,
  is modelled by returning `Except.error msg`; a successful run is `Except.ok`.
* JavaScript `Array.prototype.sort` with the comparator
  `(a, b) => a.blockTime - b.blockTime` is (per the ECMAScript spec) a stable
  ascending sort by `blockTime`; a stable sort is extensionally unique, so it
  is modelled by `List.insertionSort` over `blockTime ≤`.
-/

namespace Profitability

/-! ### Constants from `src/globals.ts` -/

/-- Estimate of the rent lamports paid when opening a position with metadata
(src/globals.ts). -/
def PAYABLE_RENT_LAMPORTS : Int := 2394240 + 1461600 + 2039280 + 15616720

/-- Estimate of the rent lamports paid when opening a position without metadata
(src/globals.ts). -/
def PAYABLE_RENT_LAMPORTS_WITHOUT_METADATA : Int := 2394240 + 1461600 + 2039280

/-- Lamports reclaimable when a position is closed (src/globals.ts). -/
def RECLAIMABLE_RENT_LAMPORTS : Int := 2394240 + 2039280

/-- Estimated lamports cost of the close transaction (src/globals.ts). -/
def CLOSE_TRANSACTION_LAMPORTS : Int := 10000

/-- Base58 rendering of `NATIVE_MINT` from `@solana/spl-token` (wrapped SOL). -/
def NATIVE_MINT : String := "So11111111111111111111111111111111111111112"

/-- Base58 rendering of `TOKEN_PROGRAM_ID` from `@solana/spl-token`. -/
def TOKEN_PROGRAM_ID : String := "TokenkegQfeZyiNwAJbNbGKPFXCWuBvf9Ss623VQ5DA"

/-! ### Helpers from `src/price-fetcher.ts` -/

/-- Embedding of `priceKey(mint, time?)` (src/price-fetcher.ts): the key of the
price map for a mint, optionally at a block time.  The source guards with
`if (!time)`, so a `0` block time (falsy in JS) also yields the current-price
key. -/
def priceKey (mint : String) (time : Option Int) : String :=
  match time with
  | none => mint
  | some t => if t = 0 then mint else mint ++ ":" ++ toString t

/-- Embedding of `convertToUiAmount(amount, decimals)` (src/price-fetcher.ts):
divide the raw integer amount by `10 ^ decimals`. -/
def convertToUiAmount (amount : Int) (decimals : Nat) : ℚ :=
  (amount : ℚ) / ((10 : ℚ) ^ decimals)

/-- Model of `invariant(x, msg)` (tiny-invariant) applied to a possibly
missing value followed by its use: produce the value, or fail with the given
message when it is absent. -/
def require {α : Type} (x : Option α) (msg : String) : Except String α :=
  match x with
  | some a => .ok a
  | none => .error msg

/-! ### Data model (`src/decode-transaction.ts` instruction union,
`src/gather-instructions.ts` transaction annotations) -/

/-- Token metadata as used by the ledger (`@orca-so/token-sdk` `Token`): the
mint address and the number of decimals. -/
structure Token where
  mint : String
  decimals : Nat
  deriving DecidableEq, Repr

/-- The fields of `WhirlpoolData` that the analysis reads: the two token mints
and the reward-info mints (`rewardInfos[i].mint`). -/
structure WhirlpoolData where
  tokenMintA : String
  tokenMintB : String
  rewardInfoMints : List String
  deriving DecidableEq, Repr

/-- The closed union of decoded whirlpool instructions
(src/decode-transaction.ts, `InstructionUnion`), with the per-variant fields
the accounting pass reads. -/
inductive IxData where
  | openPosition (whirlpool position positionMint owner : String)
      (tickUpperIndex tickLowerIndex : Int) (rentFee : Int)
  | increaseLiquidity (whirlpool position : String) (liquidityIn : Int)
      (tokenAMint tokenBMint : String) (tokenAIn tokenBIn : Int)
  | decreaseLiquidity (whirlpool position : String) (liquidityOut : Int)
      (tokenAMint tokenBMint : String) (tokenAOut tokenBOut : Int)
  | collectFees (whirlpool position : String) (tokenAMint tokenBMint : String)
      (tokenAFee tokenBFee : Int)
  | collectReward (whirlpool position : String) (rewardIndex : Int)
      (rewardMint : String) (rewardAmount : Int)
  | closePosition (position : String) (reclaimedRent : Int)
  deriving DecidableEq, Repr

/-- A decoded instruction (`DecodedInstruction = InstructionUnion &
GatheredInstruction`): the typed event plus its transaction's signature, block
time and transaction fee. -/
structure DecodedInstruction where
  signature : String
  blockTime : Int
  transactionFee : Int
  data : IxData
  deriving DecidableEq, Repr

/-- Test for `instruction.type === "openPosition"`. -/
def DecodedInstruction.isOpenPosition (ix : DecodedInstruction) : Bool :=
  match ix.data with
  | .openPosition _ _ _ _ _ _ _ => true
  | _ => false

/-- Test for `instruction.type === "closePosition"`. -/
def DecodedInstruction.isClosePosition (ix : DecodedInstruction) : Bool :=
  match ix.data with
  | .closePosition _ _ => true
  | _ => false

/-- Read the `liquidityOut` field of a decoded `decreaseLiquidity` event. -/
def IxData.liquidityOutOf : IxData → Option Int
  | .decreaseLiquidity _ _ liquidityOut _ _ _ _ => some liquidityOut
  | _ => none

/-- The comparator of `analyze-position.ts` line 321,
`(a, b) => a.blockTime - b.blockTime`: ascending block time. -/
def blockTimeOrder (a b : DecodedInstruction) : Prop :=
  a.blockTime ≤ b.blockTime

instance : DecidableRel blockTimeOrder := fun a b => by
  unfold blockTimeOrder; infer_instance

/-! ### The accounting pass (`analyzeInstructions`, src/analyze-position.ts
lines 305-473) -/

/-- The rolling state carried across the single forward pass of
`analyzeInstructions`: the mutable locals of lines 321-333. -/
structure LedgerState where
  rollingTokenAAmount : ℚ
  rollingTokenBAmount : ℚ
  totalLiquidity : Int
  transactionCosts : List (String × ℚ)
  depositedValue : ℚ
  withdrawnValue : ℚ
  forgoneValue : ℚ
  positionSize : ℚ
  collectedFeesValue : ℚ
  collectedRewardsValue : ℚ
  paidRent : ℚ
  deriving DecidableEq, Repr

/-- The initial values of the rolling state (lines 322-333). -/
def initialLedgerState : LedgerState :=
  { rollingTokenAAmount := 0
    rollingTokenBAmount := 0
    totalLiquidity := 0
    transactionCosts := []
    depositedValue := 0
    withdrawnValue := 0
    forgoneValue := 0
    positionSize := 0
    collectedFeesValue := 0
    collectedRewardsValue := 0
    paidRent := 0 }

/-- JavaScript `Map.set(k, v)`: replace the value at an existing key in place,
otherwise append the binding in insertion order. -/
def mapSet (m : List (String × ℚ)) (k : String) (v : ℚ) : List (String × ℚ) :=
  if m.any (fun p => p.1 == k) then
    m.map (fun p => if p.1 == k then (k, v) else p)
  else m ++ [(k, v)]

/-- The per-position lookup context that `analyzeInstructions` resolves before
its loop (lines 335-342): the SOL token and the pool's token A / token B, plus
the token and price maps used inside the loop. -/
structure LedgerEnv where
  solToken : Token
  tokenA : Token
  tokenB : Token
  tokenMap : String → Option Token
  priceMap : String → Option ℚ

/-- One iteration of the `for (const instruction of sortedInstructions)` loop
of `analyzeInstructions` (lines 344-445): resolve the SOL / token A / token B
prices at the instruction's block time (failing loudly when missing), record
the transaction fee by signature, and apply the per-event transition.  Note
that the `decreaseLiquidity` case computes
`liquidityOut / totalLiquidity` without any range check on the resulting
fraction. -/
def ledgerStep (env : LedgerEnv) (st : LedgerState) (instruction : DecodedInstruction) :
    Except String LedgerState := do
  let solPrice ←
    require (env.priceMap (priceKey NATIVE_MINT (some instruction.blockTime)))
      "SOL price not found"
  let tokenAPrice ←
    require (env.priceMap (priceKey env.tokenA.mint (some instruction.blockTime)))
      "Token A price not found"
  let tokenBPrice ←
    require (env.priceMap (priceKey env.tokenB.mint (some instruction.blockTime)))
      "Token B price not found"
  let transactionFee :=
    convertToUiAmount instruction.transactionFee env.solToken.decimals * solPrice
  let st := { st with transactionCosts := mapSet st.transactionCosts instruction.signature transactionFee }
  match instruction.data with
  | .openPosition _ _ _ _ _ _ rentFee =>
      let rentFeeValue := convertToUiAmount rentFee env.solToken.decimals * solPrice
      .ok { st with paidRent := st.paidRent + rentFeeValue }
  | .increaseLiquidity _ _ liquidityIn _ _ tokenAIn tokenBIn =>
      let tokenAAmount := convertToUiAmount tokenAIn env.tokenA.decimals
      let rollingTokenAAmount := st.rollingTokenAAmount + tokenAAmount
      let tokenAInValue := tokenAAmount * tokenAPrice
      let tokenBAmount := convertToUiAmount tokenBIn env.tokenB.decimals
      let rollingTokenBAmount := st.rollingTokenBAmount + tokenBAmount
      let tokenBInValue := tokenBAmount * tokenBPrice
      let depositedValue := st.depositedValue + tokenAInValue + tokenBInValue
      .ok { st with
        rollingTokenAAmount := rollingTokenAAmount
        rollingTokenBAmount := rollingTokenBAmount
        depositedValue := depositedValue
        totalLiquidity := st.totalLiquidity + liquidityIn
        positionSize := max st.positionSize (depositedValue - st.withdrawnValue) }
  | .decreaseLiquidity _ _ liquidityOut _ _ tokenAOut tokenBOut =>
      let tokenAOutValue := convertToUiAmount tokenAOut env.tokenA.decimals * tokenAPrice
      let tokenBOutValue := convertToUiAmount tokenBOut env.tokenB.decimals * tokenBPrice
      let withdrawnValue := st.withdrawnValue + tokenAOutValue + tokenBOutValue
      let withdrawnPercentage := (liquidityOut : ℚ) / (st.totalLiquidity : ℚ)
      let partialTokenAAmount := st.rollingTokenAAmount * withdrawnPercentage
      let partialTokenBAmount := st.rollingTokenBAmount * withdrawnPercentage
      let partialForgoneValue :=
        0 + partialTokenAAmount * tokenAPrice + partialTokenBAmount * tokenBPrice
      .ok { st with
        withdrawnValue := withdrawnValue
        rollingTokenBAmount := st.rollingTokenBAmount - partialTokenBAmount
        rollingTokenAAmount := st.rollingTokenAAmount - partialTokenAAmount
        forgoneValue := st.forgoneValue + partialForgoneValue
        totalLiquidity := st.totalLiquidity - liquidityOut }
  | .collectFees _ _ _ _ tokenAFee tokenBFee =>
      let tokenAFeeValue := convertToUiAmount tokenAFee env.tokenA.decimals * tokenAPrice
      let tokenBFeeValue := convertToUiAmount tokenBFee env.tokenB.decimals * tokenBPrice
      .ok { st with collectedFeesValue := st.collectedFeesValue + tokenAFeeValue + tokenBFeeValue }
  | .collectReward _ _ _ rewardMint rewardAmount => do
      let rewardToken ← require (env.tokenMap rewardMint) "Reward token not found"
      let rewardTokenPrice ←
        require (env.priceMap (priceKey rewardToken.mint (some instruction.blockTime)))
          "Reward token price not found"
      let rewardValue := convertToUiAmount rewardAmount rewardToken.decimals * rewardTokenPrice
      .ok { st with collectedRewardsValue := st.collectedRewardsValue + rewardValue }
  | .closePosition _ reclaimedRent =>
      let reclaimedRentValue := convertToUiAmount reclaimedRent env.solToken.decimals * solPrice
      .ok { st with paidRent := st.paidRent - reclaimedRentValue }

/-- The whole event loop of `analyzeInstructions`, run on an already
time-sorted instruction list from the initial rolling state. -/
def ledgerLoop (env : LedgerEnv) (instructions : List DecodedInstruction) :
    Except String LedgerState :=
  instructions.foldlM (ledgerStep env) initialLedgerState

/-- The position-scoped totals returned by `analyzeInstructions`
(the `Pick<PositionSummary, ...>` of lines 310-320). -/
structure LedgerTotals where
  depositedValue : ℚ
  withdrawnValue : ℚ
  forgoneValue : ℚ
  positionSize : ℚ
  collectedFeesValue : ℚ
  collectedRewardsValue : ℚ
  paidRent : ℚ
  transactionCost : ℚ
  deriving DecidableEq, Repr

/-- Embedding of `analyzeInstructions(instructions, whirlpool, tokenMap,
priceMap)` (src/analyze-position.ts lines 305-473): stably sort the events by
block time, resolve the SOL / token A / token B metadata, run the rolling
pass, price any remaining rolling balances at the current (untimed) prices
into `forgoneValue`, and sum the per-signature transaction costs. -/
def analyzeInstructions (instructions : List DecodedInstruction)
    (whirlpoolData : WhirlpoolData) (tokenMap : String → Option Token)
    (priceMap : String → Option ℚ) : Except String LedgerTotals := do
  let sortedInstructions := instructions.insertionSort blockTimeOrder
  let solToken ← require (tokenMap NATIVE_MINT) "SOL token not found"
  let tokenA ← require (tokenMap whirlpoolData.tokenMintA) "Token A not found"
  let tokenB ← require (tokenMap whirlpoolData.tokenMintB) "Token B not found"
  let env : LedgerEnv := ⟨solToken, tokenA, tokenB, tokenMap, priceMap⟩
  let st ← ledgerLoop env sortedInstructions
  let currentTokenAPrice ←
    require (priceMap tokenA.mint) "Current token A price not found"
  let currentTokenBPrice ←
    require (priceMap tokenB.mint) "Current token B price not found"
  let remainingForgoneValue :=
    0 + st.rollingTokenAAmount * currentTokenAPrice
      + st.rollingTokenBAmount * currentTokenBPrice
  .ok { depositedValue := st.depositedValue
        withdrawnValue := st.withdrawnValue
        forgoneValue := st.forgoneValue + remainingForgoneValue
        positionSize := st.positionSize
        collectedFeesValue := st.collectedFeesValue
        collectedRewardsValue := st.collectedRewardsValue
        paidRent := st.paidRent
        transactionCost := (st.transactionCosts.map Prod.snd).foldl (· + ·) 0 }

/-! ### Live balances (`getOutstandingBalances`, src/analyze-position.ts
lines 475-592) -/

/-- Model of an on-chain `Position` account handle as consumed by
`getOutstandingBalances`.  The numeric quote work there is done by the
external `@orca-so/whirlpools-sdk` collaborators
(`decreaseLiquidityQuoteByLiquidityWithParams`, `collectFeesQuote`,
`collectRewardsQuote`); the position is modelled by its own pool data
(`position.getWhirlpoolData()`) together with the raw integer outputs those
external quote helpers return for it (`tokenEstA/B`, `feeOwedA/B`, and the
per-reward-index amounts, `none` when the quote slot is undefined). -/
structure PositionAccount where
  whirlpoolData : WhirlpoolData
  tokenEstA : Int
  tokenEstB : Int
  feeOwedA : Int
  feeOwedB : Int
  rewardAmounts : List (Option Int)
  deriving DecidableEq, Repr

/-- The live-quote fields of the summary (`Pick<PositionSummary,
"currentValue" | "collectibleFeesValue" | "collectibleRewardsValue" |
"reclaimableRent">`). -/
structure BalanceTotals where
  currentValue : ℚ
  collectibleFeesValue : ℚ
  collectibleRewardsValue : ℚ
  reclaimableRent : ℚ
  deriving DecidableEq, Repr

/-- Embedding of `getOutstandingBalances(position, whirlPool, tokenMap,
priceMap)` (src/analyze-position.ts lines 475-592).  A missing position
account is considered closed and yields all-zero balances (lines 484-492);
otherwise the externally quoted raw amounts are converted to display units and
priced at the current (untimed) prices, and the reclaimable rent is the
constant estimate minus the close-transaction cost. -/
def getOutstandingBalances (position : Option PositionAccount)
    (whirlPool : WhirlpoolData) (tokenMap : String → Option Token)
    (priceMap : String → Option ℚ) : Except String BalanceTotals :=
  match position with
  | none =>
      .ok { currentValue := 0
            collectibleFeesValue := 0
            collectibleRewardsValue := 0
            reclaimableRent := 0 }
  | some p => do
  let solToken ← require (tokenMap NATIVE_MINT) "SOL token not found"
  let tokenA ← require (tokenMap p.whirlpoolData.tokenMintA) "Token A not found"
  let tokenB ← require (tokenMap p.whirlpoolData.tokenMintB) "Token B not found"
  let solPrice ← require (priceMap NATIVE_MINT) "Current SOL price not found"
  let tokenAPrice ← require (priceMap tokenA.mint) "Current Token A price not found"
  let tokenBPrice ← require (priceMap tokenB.mint) "Current Token B price not found"
  let tokenAAmount := convertToUiAmount p.tokenEstA tokenA.decimals
  let tokenBAmount := convertToUiAmount p.tokenEstB tokenB.decimals
  let currentValue := 0 + tokenAAmount * tokenAPrice + tokenBAmount * tokenBPrice
  let tokenAFeeAmount := convertToUiAmount p.feeOwedA tokenA.decimals
  let tokenBFeeAmount := convertToUiAmount p.feeOwedB tokenB.decimals
  let collectibleFeesValue :=
    0 + tokenAFeeAmount * tokenAPrice + tokenBFeeAmount * tokenBPrice
  let collectibleRewardsValue :=
    (whirlPool.rewardInfoMints.enum.map (fun rewardInfo =>
      match (p.rewardAmounts.get? rewardInfo.1).bind id,
          tokenMap rewardInfo.2, priceMap rewardInfo.2 with
      | some rewardAmount, some token, some price =>
          convertToUiAmount rewardAmount token.decimals * price
      | _, _, _ => (0 : ℚ))).foldl (· + ·) 0
  let reclaimableRent :=
    convertToUiAmount (RECLAIMABLE_RENT_LAMPORTS - CLOSE_TRANSACTION_LAMPORTS)
      solToken.decimals * solPrice
  .ok { currentValue := currentValue
        collectibleFeesValue := collectibleFeesValue
        collectibleRewardsValue := collectibleRewardsValue
        reclaimableRent := reclaimableRent }

/-! ### The position summary (`analyzePosition`, src/analyze-position.ts
lines 222-303) -/

/-- The immutable output record of an analysis run (\"PositionSummary\"):
identity fields, ledger totals, live-quote fields, and the derived
profitability fields. -/
structure PositionSummary where
  whirlpool : String
  position : String
  positionMint : String
  owner : String
  openedAt : Int
  closedAt : Option Int
  depositedValue : ℚ
  withdrawnValue : ℚ
  forgoneValue : ℚ
  positionSize : ℚ
  collectedFeesValue : ℚ
  collectedRewardsValue : ℚ
  paidRent : ℚ
  transactionCost : ℚ
  currentValue : ℚ
  collectibleFeesValue : ℚ
  collectibleRewardsValue : ℚ
  reclaimableRent : ℚ
  profit : ℚ
  profitRatio : ℚ
  forgoneProfit : ℚ
  forgoneProfitRatio : ℚ
  opportunityCost : ℚ
  opportunityCostRatio : ℚ
  deriving DecidableEq, Repr

/-- Embedding of `analyzePosition(instructions, positionMap, poolMap,
tokenMap, priceMap)` (src/analyze-position.ts lines 222-303): require exactly
one open event and at most one close event, resolve the pool, run the
accounting pass, reject deposits below the materiality threshold of one fiat
unit, fetch the outstanding balances, and derive the profitability fields. -/
def analyzePosition (instructions : List DecodedInstruction)
    (positionMap : String → Option PositionAccount)
    (poolMap : String → Option WhirlpoolData)
    (tokenMap : String → Option Token)
    (priceMap : String → Option ℚ) : Except String PositionSummary :=
  match instructions.filter (·.isOpenPosition) with
  | [openInstruction] =>
    (match openInstruction.data with
     | .openPosition whirlpoolKey positionKey positionMintKey ownerKey _ _ _ =>
       if (instructions.filter (·.isClosePosition)).length ≤ 1 then do
         let closeInstruction := (instructions.filter (·.isClosePosition)).head?
         let whirlpool ← require (poolMap whirlpoolKey) "Pool not found"
         let position := positionMap positionKey
         let totals ← analyzeInstructions instructions whirlpool tokenMap priceMap
         if 1 ≤ totals.depositedValue then do
           let positionBalance ←
             getOutstandingBalances position whirlpool tokenMap priceMap
           let gains := totals.withdrawnValue
             + positionBalance.currentValue
             + totals.collectedFeesValue
             + totals.collectedRewardsValue
             + positionBalance.collectibleFeesValue
             + positionBalance.collectibleRewardsValue
             + positionBalance.reclaimableRent
           let losses := totals.depositedValue
             + totals.transactionCost
             + totals.paidRent
           let profit := gains - losses
           let profitRatio := profit / totals.positionSize
           let forgoneProfit := totals.forgoneValue - totals.depositedValue
           let forgoneProfitRatio := forgoneProfit / totals.positionSize
           let opportunityCost := forgoneProfit - profit
           let opportunityCostRatio := -opportunityCost / totals.positionSize
           .ok { whirlpool := whirlpoolKey
                 position := positionKey
                 positionMint := positionMintKey
                 owner := ownerKey
                 openedAt := openInstruction.blockTime
                 closedAt := closeInstruction.map (·.blockTime)
                 depositedValue := totals.depositedValue
                 withdrawnValue := totals.withdrawnValue
                 forgoneValue := totals.forgoneValue
                 positionSize := totals.positionSize
                 collectedFeesValue := totals.collectedFeesValue
                 collectedRewardsValue := totals.collectedRewardsValue
                 paidRent := totals.paidRent
                 transactionCost := totals.transactionCost
                 currentValue := positionBalance.currentValue
                 collectibleFeesValue := positionBalance.collectibleFeesValue
                 collectibleRewardsValue := positionBalance.collectibleRewardsValue
                 reclaimableRent := positionBalance.reclaimableRent
                 profit := profit
                 profitRatio := profitRatio
                 forgoneProfit := forgoneProfit
                 forgoneProfitRatio := forgoneProfitRatio
                 opportunityCost := opportunityCost
                 opportunityCostRatio := opportunityCostRatio }
         else .error "Deposited value to small to accurately analyze"
       else .error "More than one close instruction found."
     | _ => .error "Open instruction is not an open instruction.")
  | _ => .error "No open instruction found."

/-- Embedding of `analyzePositions(position, positionMap, poolMap, tokenMap,
priceMap)` (src/analyze-position.ts lines 176-197): analyse each position's
instruction list in isolation; a failing position is logged and contributes
nothing to the returned summary list. -/
def analyzePositions (batch : List (List DecodedInstruction))
    (positionMap : String → Option PositionAccount)
    (poolMap : String → Option WhirlpoolData)
    (tokenMap : String → Option Token)
    (priceMap : String → Option ℚ) : List PositionSummary :=
  batch.flatMap (fun instructions =>
    match analyzePosition instructions positionMap poolMap tokenMap priceMap with
    | .ok summary => [summary]
    | .error _ => [])

/-! ### Instruction decoding (`src/decode-transaction.ts`) -/

/-- Model of the `parsed` payload of a `ParsedInstruction` sibling as
inspected by `nextTokenTransferAmount` (lines 429-452): the parsed `type`, and
the transfer amount.  `amount = some n` models a well-shaped
`parsed.info.amount` string encoding `n`; `amount = none` models any of the
four shape violations of lines 440-446 (missing `info`, non-object `info`,
missing `amount`, non-string `amount`), all of which make the decode of the
consuming instruction fail via `invariant`. -/
structure ParsedData where
  ptype : String
  amount : Option Int
  deriving DecidableEq, Repr

/-- Model of a `GatheredInstruction` sibling as read by the per-instruction
decode routines: the `program` label, the optional `parsed` payload (`none`
for `PartiallyDecodedInstruction`s, which have no `parsed` field), and the
transaction-level `tokenMints` map from token-account address to mint. -/
structure GatheredIx where
  program : String
  parsed : Option ParsedData
  tokenMints : String → Option String

/-- The test of lines 435-439: the sibling is a parsed `spl-token` `transfer`
instruction. -/
def isTokenTransfer (ix : GatheredIx) : Bool :=
  match ix.parsed with
  | some pd => ix.program == "spl-token" && pd.ptype == "transfer"
  | none => false

/-- The amount carried by a parsed sibling, when well shaped. -/
def transferAmount (ix : GatheredIx) : Option Int :=
  ix.parsed.bind (fun pd => pd.amount)

/-- The scanning loop of `nextTokenTransferAmount` (lines 433-450): starting
at position `i`, walk the sibling list in order and return the first parsed
`spl-token` transfer together with its index, an error when that transfer is
malformed, or `none` when the scan falls off the end of the list. -/
def nextTokenTransferAmountAux (instructions : List GatheredIx) (i : Nat) :
    Except String (Option (Int × Nat)) :=
  if h : i < instructions.length then
    let instruction := instructions.get ⟨i, h⟩
    if isTokenTransfer instruction then
      match transferAmount instruction with
      | some amount => .ok (some (amount, i))
      | none => .error "Transfer instruction does not contain a string amount"
    else nextTokenTransferAmountAux instructions (i + 1)
  else .ok none
termination_by instructions.length - i

/-- Embedding of `nextTokenTransferAmount(index, instructions)` (lines
429-452): scan the sibling list linearly starting immediately after `index`
and take the amount of the next token-transfer instruction encountered, first
match wins. -/
def nextTokenTransferAmount (index : Nat) (instructions : List GatheredIx) :
    Except String (Option (Int × Nat)) :=
  nextTokenTransferAmountAux instructions (index + 1)

/-- The instruction-data fields read by `decodeIncreaseLiquidity` /
`decodeDecreaseLiquidity`: `liquidityAmount`, present as a `BN` or not
(`invariant`s of lines 294-295). -/
structure LiquidityIxData where
  liquidityAmount : Option Int
  deriving DecidableEq, Repr

/-- The decoded result of `decodeIncreaseLiquidity`
(`IncreaseLiquidityInstruction`). -/
structure IncreaseLiquidityIx where
  whirlpool : String
  position : String
  liquidityIn : Int
  tokenAMint : String
  tokenBMint : String
  tokenAIn : Int
  tokenBIn : Int
  deriving DecidableEq, Repr

/-- Embedding of `reduceTokenMintFromAccount(instruction, tokenAccount)`
(lines 423-427), with the JS `accounts[k]` out-of-bounds access (which would
make `tokenAccount.toString()` throw) also modelled as a failure. -/
def reduceTokenMintFromAccount (instruction : GatheredIx)
    (tokenAccount : Option String) : Except String String := do
  let account ← require tokenAccount "Token account index out of bounds"
  require (instruction.tokenMints account) "Could reduce mint from token account"

/-- Embedding of `decodeIncreaseLiquidity(accounts, data, _name, index,
instructions)` (lines 282-315): fixed positional account offsets, the
`liquidityAmount` field check, mint reduction through the transaction's
post-balance map, and the two forward scans for the token A and token B
transfer amounts (the second starting at the index where the first match was
found). -/
def decodeIncreaseLiquidity (accounts : List String) (data : LiquidityIxData)
    (index : Nat) (instructions : List GatheredIx) :
    Except String IncreaseLiquidityIx := do
  let whirlpoolAccount ←
    require accounts[0]? "Could not find whirlpool account for openPosition ix"
  let positionAccount ←
    require accounts[3]? "Could not find position account for openPosition ix"
  let liquidityAmount ←
    require data.liquidityAmount "Instruction data does not contain liquidityAmount"
  let currentIx ← require instructions[index]? "Instruction index out of bounds"
  let tokenAMint ← reduceTokenMintFromAccount currentIx accounts[7]?
  let tokenBMint ← reduceTokenMintFromAccount currentIx accounts[8]?
  let firstTransfer ← nextTokenTransferAmount index instructions
  let (tokenAIn, nextTokenTransferIndex) ←
    require firstTransfer "Could not find reward amount for increaseLiquidity ix"
  let secondTransfer ← nextTokenTransferAmount nextTokenTransferIndex instructions
  let (tokenBIn, _) ←
    require secondTransfer "Could not find reward amount for increaseLiquidity ix"
  .ok { whirlpool := whirlpoolAccount
        position := positionAccount
        liquidityIn := liquidityAmount
        tokenAMint := tokenAMint
        tokenBMint := tokenBMint
        tokenAIn := tokenAIn
        tokenBIn := tokenBIn }

/-- The instruction-data fields read by `decodeOpenPosition`: the two tick
indices, each `some` when present and a number (`invariant`s of lines
263-266). -/
structure OpenPositionData where
  tickLowerIndex : Option Int
  tickUpperIndex : Option Int
  deriving DecidableEq, Repr

/-- The decoded result of `decodeOpenPosition` (`OpenPositionInstruction`,
without the transaction annotations). -/
structure OpenPositionIx where
  whirlpool : String
  position : String
  positionMint : String
  owner : String
  tickUpperIndex : Int
  tickLowerIndex : Int
  rentFee : Int
  deriving DecidableEq, Repr

/-- JavaScript array access `accounts[i]` for a possibly negative computed
index: `undefined` for a negative index is modelled as `none`. -/
def jsIndex (accounts : List String) (i : Int) : Option String :=
  if 0 ≤ i then accounts[i.toNat]? else none

/-- Embedding of `decodeOpenPosition(accounts, data, name)` (lines 250-280):
the whirlpool account is the account immediately before `TOKEN_PROGRAM_ID` in
the account list (JS `findIndex` returns `-1` when absent, making the access
fail), owner / position / position mint are at fixed offsets 1 / 2 / 3, the
tick indices must be present, and the rent-fee constant is selected by the
instruction name.  Lines 276-277 assign `data.tickLowerIndex` to the event's
`tickUpperIndex` field and `data.tickUpperIndex` to the event's
`tickLowerIndex` field. -/
def decodeOpenPosition (accounts : List String) (data : OpenPositionData)
    (name : String) : Except String OpenPositionIx := do
  let whirlpoolAccountIndex : Int :=
    (match accounts.findIdx? (· == TOKEN_PROGRAM_ID) with
     | some i => (i : Int)
     | none => -1) - 1
  let whirlpoolAccount ←
    require (jsIndex accounts whirlpoolAccountIndex)
      "Could not find whirlpool account for openPosition ix"
  let ownerAccount ←
    require accounts[1]? "Could not find owner account for openPosition ix"
  let positionAccount ←
    require accounts[2]? "Could not find position account for openPosition ix"
  let positionMintAccount ←
    require accounts[3]? "Could not find position mint account for openPosition ix"
  let tickLowerIndex ←
    require data.tickLowerIndex "Instruction data does not contain tickLowerIndex"
  let tickUpperIndex ←
    require data.tickUpperIndex "Instruction data does not contain tickUpperIndex"
  let rentFee :=
    if name == "openPositionWithMetadata" then PAYABLE_RENT_LAMPORTS
    else PAYABLE_RENT_LAMPORTS_WITHOUT_METADATA
  .ok { whirlpool := whirlpoolAccount
        position := positionAccount
        owner := ownerAccount
        positionMint := positionMintAccount
        tickUpperIndex := tickLowerIndex
        tickLowerIndex := tickUpperIndex
        rentFee := rentFee }

/-! ### Observable effect of `analyzeInstructions` on its input
(src/analyze-position.ts line 321) -/

/-- The contents of the caller's `instructions` array after
`analyzeInstructions` returns.  Line 321 reads
`const sortedInstructions = instructions.sort((a, b) => a.blockTime - b.blockTime)`,
and JavaScript `Array.prototype.sort` sorts the receiver in place, so once the
call returns the caller's array holds the stable blockTime-sorted permutation
of its original contents. -/
def callerInstructionsAfterAnalyze (instructions : List DecodedInstruction) :
    List DecodedInstruction :=
  instructions.insertionSort blockTimeOrder

/-! ### Helpers for reasoning about the rent ledger -/

/-- Whether an event touches the `paidRent` accumulator (an open or a close
event). -/
def isRentEvent (ix : DecodedInstruction) : Bool :=
  ix.isOpenPosition || ix.isClosePosition

/-- The contribution of one event to `paidRent` in a successful pass: an open
event adds its rent fee's fiat value at the event-time SOL price, a close
event subtracts its reclaimed rent's fiat value, and every other event
contributes nothing. -/
def rentTerm (env : LedgerEnv) (ix : DecodedInstruction) : ℚ :=
  match ix.data with
  | .openPosition _ _ _ _ _ _ rentFee =>
      convertToUiAmount rentFee env.solToken.decimals *
        ((env.priceMap (priceKey NATIVE_MINT (some ix.blockTime))).getD 0)
  | .closePosition _ reclaimedRent =>
      -(convertToUiAmount reclaimedRent env.solToken.decimals *
        ((env.priceMap (priceKey NATIVE_MINT (some ix.blockTime))).getD 0))
  | _ => 0

/-! ### Concrete fixtures used to witness the theorems -/

/-- A token map holding SOL and the two pool mints, all with zero decimals. -/
def tokenMapC : String → Option Token := fun m =>
  if m = NATIVE_MINT then some ⟨NATIVE_MINT, 0⟩
  else if m = "MINTA" then some ⟨"MINTA", 0⟩
  else if m = "MINTB" then some ⟨"MINTB", 0⟩
  else none

/-- A pool over `MINTA` / `MINTB` with no reward infos. -/
def poolC : WhirlpoolData := ⟨"MINTA", "MINTB", []⟩

/-- A pool map holding `poolC` under the address `POOL`. -/
def poolMapC : String → Option WhirlpoolData := fun w =>
  if w = "POOL" then some poolC else none

/-- A position map with no live accounts (every position closed). -/
def positionMapNone : String → Option PositionAccount := fun _ => none

/-- A price map quoting every key at 1. -/
def priceMapOne : String → Option ℚ := fun _ => some 1

/-- The resolved ledger context for `poolC` under `tokenMapC` /
`priceMapOne`. -/
def envOne : LedgerEnv :=
  ⟨⟨NATIVE_MINT, 0⟩, ⟨"MINTA", 0⟩, ⟨"MINTB", 0⟩, tokenMapC, priceMapOne⟩

/-- An open event for the fixture position, with a zero rent fee. -/
def cOpen : DecodedInstruction :=
  ⟨"sig0", 1, 0, .openPosition "POOL" "POS" "PMINT" "OWNER" 10 (-10) 0⟩

/-- An increase event depositing 10 of token A (no token B) for 100 liquidity
units. -/
def cInc : DecodedInstruction :=
  ⟨"sig1", 1, 0, .increaseLiquidity "POOL" "POS" 100 "MINTA" "MINTB" 10 0⟩

/-- A decrease event withdrawing 150 liquidity units, more than the 100 ever
deposited. -/
def c1Dec : DecodedInstruction :=
  ⟨"sig2", 2, 0, .decreaseLiquidity "POOL" "POS" 150 "MINTA" "MINTB" 15 0⟩

/-- The rolling state after `cInc` alone under `envOne`. -/
def c1MidState : LedgerState :=
  { rollingTokenAAmount := 10
    rollingTokenBAmount := 0
    totalLiquidity := 100
    transactionCosts := [("sig1", 0)]
    depositedValue := 10
    withdrawnValue := 0
    forgoneValue := 0
    positionSize := 10
    collectedFeesValue := 0
    collectedRewardsValue := 0
    paidRent := 0 }

/-- The rolling state after `cInc` then `c1Dec` under `envOne`: the unchecked
fraction 150/100 drives the rolling token A balance negative. -/
def c1EndState : LedgerState :=
  { rollingTokenAAmount := -5
    rollingTokenBAmount := 0
    totalLiquidity := -50
    transactionCosts := [("sig1", 0), ("sig2", 0)]
    depositedValue := 10
    withdrawnValue := 15
    forgoneValue := 15
    positionSize := 10
    collectedFeesValue := 0
    collectedRewardsValue := 0
    paidRent := 0 }

/-- The totals `analyzeInstructions` reports for `[cInc, c1Dec]` under
`priceMapOne`: it completes without any error. -/
def c1Totals : LedgerTotals :=
  { depositedValue := 10
    withdrawnValue := 15
    forgoneValue := 10
    positionSize := 10
    collectedFeesValue := 0
    collectedRewardsValue := 0
    paidRent := 0
    transactionCost := 0 }

/-- The summary produced for the fixture position `[cOpen, cInc2]` (open plus
a 10-token deposit at price 1, nothing else, no live account). -/
def c2Inc : DecodedInstruction :=
  ⟨"sig1", 2, 0, .increaseLiquidity "POOL" "POS" 100 "MINTA" "MINTB" 10 0⟩

/-- The expected summary for `[cOpen, c2Inc]`. -/
def c2Summary : PositionSummary :=
  { whirlpool := "POOL"
    position := "POS"
    positionMint := "PMINT"
    owner := "OWNER"
    openedAt := 1
    closedAt := none
    depositedValue := 10
    withdrawnValue := 0
    forgoneValue := 10
    positionSize := 10
    collectedFeesValue := 0
    collectedRewardsValue := 0
    paidRent := 0
    transactionCost := 0
    currentValue := 0
    collectibleFeesValue := 0
    collectibleRewardsValue := 0
    reclaimableRent := 0
    profit := -10
    profitRatio := -1
    forgoneProfit := 0
    forgoneProfitRatio := 0
    opportunityCost := 10
    opportunityCostRatio := -1 }

/-- A price map quoting token A at 2 at block time 2 and everything else
(including token A at block time 1 and at the current instant) at 1. -/
def priceMapC3 : String → Option ℚ := fun k =>
  if k = "MINTA" ++ ":" ++ toString (2 : Int) then some 2 else some 1

/-- The ledger context for `poolC` under `priceMapC3`. -/
def envC3 : LedgerEnv :=
  ⟨⟨NATIVE_MINT, 0⟩, ⟨"MINTA", 0⟩, ⟨"MINTB", 0⟩, tokenMapC, priceMapC3⟩

/-- A decrease event withdrawing the full 100 liquidity units. -/
def c3Dec : DecodedInstruction :=
  ⟨"sig2", 2, 0, .decreaseLiquidity "POOL" "POS" 100 "MINTA" "MINTB" 11 0⟩

/-- The rolling state after `cInc` then `c3Dec` under `envC3`: a 10-token
deposit worth 10 was fully withdrawn while token A's price moved from 1 to 2,
so the pre-adjustment forgone value is 20, not the deposit value 10. -/
def c3State : LedgerState :=
  { rollingTokenAAmount := 0
    rollingTokenBAmount := 0
    totalLiquidity := 0
    transactionCosts := [("sig1", 0), ("sig2", 0)]
    depositedValue := 10
    withdrawnValue := 22
    forgoneValue := 20
    positionSize := 10
    collectedFeesValue := 0
    collectedRewardsValue := 0
    paidRent := 0 }

/-- A price map quoting token A at 1.10 at block time 2 and everything else
at 1. -/
def priceMapC4 : String → Option ℚ := fun k =>
  if k = "MINTA" ++ ":" ++ toString (2 : Int) then some (11 / 10) else some 1

/-- The ledger context for `poolC` under `priceMapC4`. -/
def envC4 : LedgerEnv :=
  ⟨⟨NATIVE_MINT, 0⟩, ⟨"MINTA", 0⟩, ⟨"MINTB", 0⟩, tokenMapC, priceMapC4⟩

/-- A decrease event withdrawing 40 of the 100 liquidity units, receiving 4
token A. -/
def c4Dec : DecodedInstruction :=
  ⟨"sig2", 2, 0, .decreaseLiquidity "POOL" "POS" 40 "MINTA" "MINTB" 4 0⟩

/-- The rolling state after `cInc` then `c4Dec` under `envC4`. -/
def c4State : LedgerState :=
  { rollingTokenAAmount := 6
    rollingTokenBAmount := 0
    totalLiquidity := 60
    transactionCosts := [("sig1", 0), ("sig2", 0)]
    depositedValue := 10
    withdrawnValue := 22 / 5
    forgoneValue := 22 / 5
    positionSize := 10
    collectedFeesValue := 0
    collectedRewardsValue := 0
    paidRent := 0 }

/-- The totals `analyzeInstructions` reports for `[cInc, c4Dec]` under
`priceMapC4` (the remaining 6 token A priced at the current price 1 are added
to the forgone value). -/
def c4Totals : LedgerTotals :=
  { depositedValue := 10
    withdrawnValue := 22 / 5
    forgoneValue := 52 / 5
    positionSize := 10
    collectedFeesValue := 0
    collectedRewardsValue := 0
    paidRent := 0
    transactionCost := 0 }

/-- An open event paying a rent fee of 5 lamports-equivalent units. -/
def c5Open : DecodedInstruction :=
  ⟨"sig0", 1, 0, .openPosition "POOL" "POS" "PMINT" "OWNER" 10 (-10) 5⟩

/-- A close event reclaiming the same 5 units of rent. -/
def c5Close : DecodedInstruction :=
  ⟨"sig9", 3, 0, .closePosition "POS" 5⟩

/-- The totals `analyzeInstructions` reports for `[c5Open, c5Close]` under
`priceMapOne`. -/
def c5Totals : LedgerTotals :=
  { depositedValue := 0
    withdrawnValue := 0
    forgoneValue := 0
    positionSize := 0
    collectedFeesValue := 0
    collectedRewardsValue := 0
    paidRent := 0
    transactionCost := 0 }

/-- The totals `analyzeInstructions` reports for `[cOpen]` alone under
`priceMapOne`. -/
def c6Totals : LedgerTotals :=
  { depositedValue := 0
    withdrawnValue := 0
    forgoneValue := 0
    positionSize := 0
    collectedFeesValue := 0
    collectedRewardsValue := 0
    paidRent := 0
    transactionCost := 0 }

/-- A sibling list for the decoder fixtures: the whirlpool instruction at
index 0, a token A transfer of 5 at index 1, an unrelated parsed sibling at
index 2, and a token B transfer of 7 at index 3. -/
def c8Siblings : List GatheredIx :=
  [⟨"whirLbMiicVdio4qvUfM5KAg6Ct8VwpYzGff3uctyCc", none,
      fun a => if a = "VAULTA" then some "MINTA"
        else if a = "VAULTB" then some "MINTB" else none⟩,
   ⟨"spl-token", some ⟨"transfer", some 5⟩, fun _ => none⟩,
   ⟨"spl-memo", some ⟨"memo", none⟩, fun _ => none⟩,
   ⟨"spl-token", some ⟨"transfer", some 7⟩, fun _ => none⟩]

/-- The account list of the fixture increase-liquidity instruction: the
whirlpool at offset 0, the position at offset 3, and the two token vaults at
offsets 7 and 8. -/
def c8Accounts : List String :=
  ["WHIRL", "TOKPROG", "AUTH", "POS", "POSTA", "TA", "TB", "VAULTA", "VAULTB"]

/-- The decoded result of the fixture increase-liquidity instruction. -/
def c8Result : IncreaseLiquidityIx :=
  { whirlpool := "WHIRL"
    position := "POS"
    liquidityIn := 100
    tokenAMint := "MINTA"
    tokenBMint := "MINTB"
    tokenAIn := 5
    tokenBIn := 7 }

/-- An input list for the mutation counterexample whose two events are out of
time order. -/
def c9Input : List DecodedInstruction :=
  [⟨"sig9", 3, 0, .closePosition "POS" 5⟩,
   ⟨"sig0", 1, 0, .openPosition "POOL" "POS" "PMINT" "OWNER" 10 (-10) 5⟩]

/-- The account list of the fixture open-position instruction: the whirlpool
account sits immediately before the token program. -/
def c10Accounts : List String :=
  ["FUNDER", "OWNER", "POS", "PMINT", "PTA", "WHIRL", TOKEN_PROGRAM_ID]

/-- The tick-index fields of the fixture open-position instruction data. -/
def c10Data : OpenPositionData := ⟨some 5, some 9⟩

/-- The decoded result of the fixture open-position instruction: the tick
bounds land swapped. -/
def c10Result : OpenPositionIx :=
  { whirlpool := "WHIRL"
    position := "POS"
    positionMint := "PMINT"
    owner := "OWNER"
    tickUpperIndex := 5
    tickLowerIndex := 9
    rentFee := PAYABLE_RENT_LAMPORTS_WITHOUT_METADATA }

/-! ## Theorems -/

/-! ### General helper lemmas -/

/-- Inversion for a successful `Except` bind. -/
theorem exceptBind_ok {ε α β : Type} (x : Except ε α) (f : α → Except ε β) (b : β) :
    x >>= f = .ok b ↔ ∃ a, x = .ok a ∧ f a = .ok b := by
  cases x <;> simp [Bind.bind, Except.bind]

/-- Inversion for a successful `require`. -/
theorem require_ok {α : Type} (x : Option α) (msg : String) (a : α) :
    require x msg = .ok a ↔ x = some a := by
  cases x <;> simp [require]

instance : IsTotal DecodedInstruction blockTimeOrder :=
  ⟨fun a b => le_total a.blockTime b.blockTime⟩

instance : IsTrans DecodedInstruction blockTimeOrder :=
  ⟨fun _ _ _ h h' => le_trans h h'⟩

/-! ### Claim C9 — `analyzeInstructions` and its input list -/

/-- Claim C9 counterexample: `analyzeInstructions` does mutate its input.
For the out-of-time-order two-event list `c9Input`, the caller's array after
the call (sorted in place by line 321) differs from the list that was passed
in. -/
theorem c9_counterexample : callerInstructionsAfterAnalyze c9Input ≠ c9Input := by
  decide

/-- Claim C9 (amended): `analyzeInstructions` permutes the caller's list in
place into stable block-time order: after the call the caller's list holds
exactly the same elements (as a multiset), sorted by block time, but not in
general in their original order. -/
theorem c9_sort_in_place (instructions : List DecodedInstruction) :
    (callerInstructionsAfterAnalyze instructions).Perm instructions ∧
      List.Sorted blockTimeOrder (callerInstructionsAfterAnalyze instructions) :=
  ⟨List.perm_insertionSort blockTimeOrder instructions,
   List.sorted_insertionSort blockTimeOrder instructions⟩

/-! ### Claim C10 — the decoded tick bounds are swapped -/

/-- Claim C10: every successfully decoded open-position instruction carries
the instruction data's `tickLowerIndex` in the event's `tickUpperIndex` field
and the data's `tickUpperIndex` in the event's `tickLowerIndex` field: the
decoded tick bounds are swapped relative to the on-chain instruction data. -/
theorem c10_tick_swap (accounts : List String) (data : OpenPositionData)
    (name : String) (r : OpenPositionIx)
    (h : decodeOpenPosition accounts data name = .ok r) :
    data.tickLowerIndex = some r.tickUpperIndex ∧
      data.tickUpperIndex = some r.tickLowerIndex := by
  simp only [decodeOpenPosition, exceptBind_ok, require_ok] at h
  obtain ⟨w, hw, o, ho, p, hp, m, hm, tl, htl, tu, htu, hok⟩ := h
  simp only [Except.ok.injEq] at hok
  subst hok
  simp_all

/-- Claim C10 witness: a concrete open-position instruction decodes
successfully and its tick bounds come out swapped. -/
theorem c10_witness :
    decodeOpenPosition c10Accounts c10Data "openPosition" = .ok c10Result ∧
      c10Data.tickLowerIndex = some c10Result.tickUpperIndex ∧
      c10Data.tickUpperIndex = some c10Result.tickLowerIndex := by
  have h : decodeOpenPosition c10Accounts c10Data "openPosition" = .ok c10Result := by
    rfl
  exact ⟨h, c10_tick_swap c10Accounts c10Data "openPosition" c10Result h⟩

/-! ### Claim C2 — the derived profitability formulas -/

/-- Claim C2: every summary produced by `analyzePosition` satisfies the
derived-field formulas: profit is gains (withdrawn + current + collected fees
+ collected rewards + collectible fees + collectible rewards + reclaimable
rent) minus losses (deposited + transaction cost + paid rent), the ratios
divide by the position size, forgone profit is forgone value minus deposited
value, opportunity cost is forgone profit minus profit, and its ratio is the
negated opportunity cost over the position size. -/
theorem c2_derived_formulas (instructions : List DecodedInstruction)
    (positionMap : String → Option PositionAccount)
    (poolMap : String → Option WhirlpoolData)
    (tokenMap : String → Option Token)
    (priceMap : String → Option ℚ) (s : PositionSummary)
    (h : analyzePosition instructions positionMap poolMap tokenMap priceMap = .ok s) :
    s.profit = (s.withdrawnValue + s.currentValue + s.collectedFeesValue
        + s.collectedRewardsValue + s.collectibleFeesValue
        + s.collectibleRewardsValue + s.reclaimableRent)
      - (s.depositedValue + s.transactionCost + s.paidRent) ∧
    s.profitRatio = s.profit / s.positionSize ∧
    s.forgoneProfit = s.forgoneValue - s.depositedValue ∧
    s.forgoneProfitRatio = s.forgoneProfit / s.positionSize ∧
    s.opportunityCost = s.forgoneProfit - s.profit ∧
    s.opportunityCostRatio = -s.opportunityCost / s.positionSize := by
  unfold analyzePosition at h
  split at h
  case h_2 => simp at h
  split at h
  case h_2 => simp at h
  split at h
  case isFalse => simp at h
  simp only [exceptBind_ok, require_ok] at h
  obtain ⟨whirlpool, hPool, totals, hTotals, h⟩ := h
  split at h
  case isFalse => simp at h
  simp only [exceptBind_ok] at h
  obtain ⟨bal, hBal, h⟩ := h
  simp only [Except.ok.injEq] at h
  subst h
  exact ⟨rfl, rfl, rfl, rfl, rfl, rfl⟩

/-- Claim C2 witness: a concrete two-event position analyses successfully and
its summary satisfies all six derived-field formulas. -/
theorem c2_witness :
    analyzePosition [cOpen, c2Inc] positionMapNone poolMapC tokenMapC priceMapOne
        = .ok c2Summary ∧
      c2Summary.profit = (c2Summary.withdrawnValue + c2Summary.currentValue
          + c2Summary.collectedFeesValue + c2Summary.collectedRewardsValue
          + c2Summary.collectibleFeesValue + c2Summary.collectibleRewardsValue
          + c2Summary.reclaimableRent)
        - (c2Summary.depositedValue + c2Summary.transactionCost + c2Summary.paidRent) ∧
      c2Summary.profitRatio = c2Summary.profit / c2Summary.positionSize ∧
      c2Summary.forgoneProfit = c2Summary.forgoneValue - c2Summary.depositedValue ∧
      c2Summary.forgoneProfitRatio = c2Summary.forgoneProfit / c2Summary.positionSize ∧
      c2Summary.opportunityCost = c2Summary.forgoneProfit - c2Summary.profit ∧
      c2Summary.opportunityCostRatio = -c2Summary.opportunityCost / c2Summary.positionSize := by
  have h : analyzePosition [cOpen, c2Inc] positionMapNone poolMapC tokenMapC priceMapOne
      = .ok c2Summary := by
    norm_num +decide [analyzePosition, analyzeInstructions, getOutstandingBalances,
      ledgerLoop, ledgerStep, initialLedgerState, List.insertionSort,
      List.orderedInsert, blockTimeOrder, tokenMapC, poolC, poolMapC,
      positionMapNone, priceMapOne, priceKey, convertToUiAmount, mapSet,
      NATIVE_MINT, cOpen, c2Inc, c2Summary, List.foldlM, require, Bind.bind,
      Except.bind, Pure.pure, Except.pure, List.map, List.foldl, List.filter,
      DecodedInstruction.isOpenPosition, DecodedInstruction.isClosePosition]
  exact ⟨h, c2_derived_formulas _ _ _ _ _ _ h⟩

/-! ### Claim C4 — the worked increase/decrease scenario -/

/-- Claim C4: on Increase(liquidity 100, 10 token A at price 1, no token B)
followed by Decrease(liquidity 40, 4 token A out at price 1.10, no token B),
the accounting pass yields a deposited value of 10, a withdrawn value of 4.40,
a forgone-value contribution from the decrease of exactly 4 × 1.10 = 4.40,
and a remaining rolling token A balance of exactly 6; the full
`analyzeInstructions` run completes with those deposited and withdrawn
totals. -/
theorem c4_scenario :
    ledgerLoop envC4 ([cInc, c4Dec].insertionSort blockTimeOrder) = .ok c4State ∧
      c4State.depositedValue = 10 ∧
      c4State.withdrawnValue = 22 / 5 ∧
      c4State.forgoneValue = 22 / 5 ∧
      c4State.rollingTokenAAmount = 6 ∧
      analyzeInstructions [cInc, c4Dec] poolC tokenMapC priceMapC4 = .ok c4Totals ∧
      c4Totals.depositedValue = 10 ∧
      c4Totals.withdrawnValue = 22 / 5 := by
  norm_num +decide [analyzeInstructions, ledgerLoop, ledgerStep,
    initialLedgerState, List.insertionSort, List.orderedInsert, blockTimeOrder,
    tokenMapC, poolC, priceMapC4, envC4, priceKey, convertToUiAmount, mapSet,
    NATIVE_MINT, cInc, c4Dec, c4State, c4Totals, List.foldlM, require,
    Bind.bind, Except.bind, Pure.pure, Except.pure, List.map, List.foldl]

/-! ### Claim C1 — the withdrawn fraction is never validated -/

/-- Claim C1 (code bug evidence): after a 100-liquidity increase, a decrease
withdrawing 150 liquidity units gives the withdrawn fraction 150/100 = 3/2,
strictly greater than 1, yet the accounting neither clamps nor errors: the
decrease step succeeds (driving the rolling token A balance negative) and the
whole `analyzeInstructions` run completes with `.ok`. -/
theorem c1_unchecked_fraction :
    ledgerLoop envOne [cInc] = .ok c1MidState ∧
      IxData.liquidityOutOf c1Dec.data = some 150 ∧
      1 < (150 : ℚ) / (c1MidState.totalLiquidity : ℚ) ∧
      ledgerStep envOne c1MidState c1Dec = .ok c1EndState ∧
      analyzeInstructions [cInc, c1Dec] poolC tokenMapC priceMapOne = .ok c1Totals := by
  norm_num +decide [analyzeInstructions, ledgerLoop, ledgerStep,
    initialLedgerState, List.insertionSort, List.orderedInsert, blockTimeOrder,
    tokenMapC, poolC, priceMapOne, envOne, priceKey, convertToUiAmount, mapSet,
    NATIVE_MINT, cInc, c1Dec, c1MidState, c1EndState, c1Totals, List.foldlM,
    require, Bind.bind, Except.bind, Pure.pure, Except.pure, List.map,
    List.foldl, IxData.liquidityOutOf]

/-! ### Claim C3 — conservation under a full withdrawal -/

/-- Claim C3 counterexample: for a position whose time-sorted events are one
increase (10 token A at price 1, fiat value V = 10, 100 liquidity) followed
by one decrease withdrawing 100% of the rolling total liquidity while token
A's price has moved to 2, the forgone value accumulated before the
remaining-balance adjustment is 20, not the increase's fiat value 10: the
proportional amounts are priced at the decrease event's prices, not at the
deposit-time prices.  (The rolling balances do end at exactly zero.) -/
theorem c3_counterexample :
    ledgerLoop envC3 ([cInc, c3Dec].insertionSort blockTimeOrder) = .ok c3State ∧
      ledgerLoop envC3 [cInc] = .ok c1MidState ∧
      c1MidState.totalLiquidity = 100 ∧
      IxData.liquidityOutOf c3Dec.data = some 100 ∧
      c3State.depositedValue = 10 ∧
      c3State.forgoneValue = 20 ∧
      c3State.rollingTokenAAmount = 0 ∧
      c3State.rollingTokenBAmount = 0 ∧
      (20 : ℚ) ≠ (10 : ℚ) := by
  norm_num +decide [ledgerLoop, ledgerStep, initialLedgerState,
    List.insertionSort, List.orderedInsert, blockTimeOrder, tokenMapC,
    priceMapC3, envC3, priceKey, convertToUiAmount, mapSet, NATIVE_MINT, cInc,
    c3Dec, c3State, c1MidState, List.foldlM, require, Bind.bind, Except.bind,
    Pure.pure, Except.pure, IxData.liquidityOutOf]

/-- Claim C3 (amended): for a position whose time-sorted events are exactly
one increase (raw amounts `a`, `b`, liquidity `L ≠ 0`) followed by one
decrease withdrawing 100% of the rolling total liquidity, and whose token A
and token B prices at the decrease time equal those at the increase time, the
forgone value accumulated before the remaining-balance adjustment equals the
increase's fiat value (the whole deposit is attributed), and after the
decrease both rolling token balances are exactly zero. -/
theorem c3_full_withdrawal (env : LedgerEnv)
    (sig1 sig2 wp1 wp2 pos1 pos2 mA1 mB1 mA2 mB2 : String)
    (t1 t2 fee1 fee2 L a b aOut bOut : Int) (pA pB pS1 pS2 : ℚ)
    (hS1 : env.priceMap (priceKey NATIVE_MINT (some t1)) = some pS1)
    (hS2 : env.priceMap (priceKey NATIVE_MINT (some t2)) = some pS2)
    (hA1 : env.priceMap (priceKey env.tokenA.mint (some t1)) = some pA)
    (hB1 : env.priceMap (priceKey env.tokenB.mint (some t1)) = some pB)
    (hA2 : env.priceMap (priceKey env.tokenA.mint (some t2)) = some pA)
    (hB2 : env.priceMap (priceKey env.tokenB.mint (some t2)) = some pB)
    (hL : L ≠ 0) :
    ∃ st, ledgerLoop env
        [⟨sig1, t1, fee1, .increaseLiquidity wp1 pos1 L mA1 mB1 a b⟩,
         ⟨sig2, t2, fee2, .decreaseLiquidity wp2 pos2 L mA2 mB2 aOut bOut⟩] = .ok st ∧
      st.depositedValue = convertToUiAmount a env.tokenA.decimals * pA
        + convertToUiAmount b env.tokenB.decimals * pB ∧
      st.forgoneValue = st.depositedValue ∧
      st.rollingTokenAAmount = 0 ∧
      st.rollingTokenBAmount = 0 := by
  have hLQ : ((L : Int) : ℚ) ≠ 0 := Int.cast_ne_zero.mpr hL
  unfold ledgerLoop
  simp only [List.foldlM_cons, List.foldlM_nil, ledgerStep, hS1, hS2, hA1, hB1,
    hA2, hB2, require, Bind.bind, Except.bind, Pure.pure, Except.pure,
    initialLedgerState]
  refine ⟨_, rfl, ?_, ?_, ?_, ?_⟩ <;> simp [div_self hLQ]

/-- Claim C3 witness: a concrete full-withdrawal position with unchanged
prices attributes the whole deposit and zeroes both rolling balances. -/
theorem c3_witness :
    ∃ st, ledgerLoop envOne
        [⟨"sig1", 1, 0, .increaseLiquidity "POOL" "POS" 100 "MINTA" "MINTB" 10 0⟩,
         ⟨"sig2", 2, 0, .decreaseLiquidity "POOL" "POS" 100 "MINTA" "MINTB" 10 0⟩] = .ok st ∧
      st.depositedValue = convertToUiAmount 10 envOne.tokenA.decimals * 1
        + convertToUiAmount 0 envOne.tokenB.decimals * 1 ∧
      st.forgoneValue = st.depositedValue ∧
      st.rollingTokenAAmount = 0 ∧
      st.rollingTokenBAmount = 0 :=
  c3_full_withdrawal envOne "sig1" "sig2" "POOL" "POOL" "POS" "POS" "MINTA"
    "MINTB" "MINTA" "MINTB" 1 2 0 0 100 10 0 10 0 1 1 1 1
    rfl rfl rfl rfl rfl rfl (by decide)

/-! ### Claims C6 and C7 — per-position guards and batch isolation -/

/-- A position whose analysis fails contributes nothing to the batch result,
and every other position in the batch is analysed unchanged. -/
theorem analyzePositions_drop
    (positionMap : String → Option PositionAccount)
    (poolMap : String → Option WhirlpoolData)
    (tokenMap : String → Option Token)
    (priceMap : String → Option ℚ)
    (l : List DecodedInstruction) (pre post : List (List DecodedInstruction))
    (e : String)
    (h : analyzePosition l positionMap poolMap tokenMap priceMap = .error e) :
    analyzePositions (pre ++ l :: post) positionMap poolMap tokenMap priceMap =
      analyzePositions pre positionMap poolMap tokenMap priceMap ++
        analyzePositions post positionMap poolMap tokenMap priceMap := by
  simp [analyzePositions, h]

/-- Claim C6: a position whose accounting succeeds with a deposited value
below 1 fiat unit is rejected by `analyzePosition` with exactly the
materiality-guard error (so no ratio is ever derived from its near-zero
position size), and `analyzePositions` excludes it from the returned summary
list while analysing the rest of the batch unchanged. -/
theorem c6_materiality_guard (instructions : List DecodedInstruction)
    (positionMap : String → Option PositionAccount)
    (poolMap : String → Option WhirlpoolData)
    (tokenMap : String → Option Token)
    (priceMap : String → Option ℚ)
    (o : DecodedInstruction) (wp pos pm ow : String) (tU tL rf : Int)
    (pool : WhirlpoolData) (totals : LedgerTotals)
    (hOpen : instructions.filter (·.isOpenPosition) = [o])
    (hData : o.data = .openPosition wp pos pm ow tU tL rf)
    (hClose : (instructions.filter (·.isClosePosition)).length ≤ 1)
    (hPool : poolMap wp = some pool)
    (hTotals : analyzeInstructions instructions pool tokenMap priceMap = .ok totals)
    (hSmall : totals.depositedValue < 1) :
    analyzePosition instructions positionMap poolMap tokenMap priceMap =
      .error "Deposited value to small to accurately analyze" ∧
    ∀ pre post,
      analyzePositions (pre ++ instructions :: post) positionMap poolMap tokenMap priceMap =
        analyzePositions pre positionMap poolMap tokenMap priceMap ++
          analyzePositions post positionMap poolMap tokenMap priceMap := by
  have hErr : analyzePosition instructions positionMap poolMap tokenMap priceMap =
      .error "Deposited value to small to accurately analyze" := by
    unfold analyzePosition
    rw [hOpen]
    simp only [hData, hPool, hTotals, require, Bind.bind, Except.bind,
      if_pos hClose, if_neg (not_le.mpr hSmall)]
  exact ⟨hErr, fun pre post =>
    analyzePositions_drop positionMap poolMap tokenMap priceMap instructions
      pre post _ hErr⟩

/-- Claim C6 witness: a one-event position (open only, zero deposit) is
rejected with the materiality error and excluded from the batch output. -/
theorem c6_witness :
    analyzePosition [cOpen] positionMapNone poolMapC tokenMapC priceMapOne =
      .error "Deposited value to small to accurately analyze" ∧
    analyzePositions [[cOpen]] positionMapNone poolMapC tokenMapC priceMapOne = [] := by
  have hTotals : analyzeInstructions [cOpen] poolC tokenMapC priceMapOne = .ok c6Totals := by
    norm_num +decide [analyzeInstructions, ledgerLoop, ledgerStep,
      initialLedgerState, List.insertionSort, List.orderedInsert,
      blockTimeOrder, tokenMapC, poolC, priceMapOne, priceKey,
      convertToUiAmount, mapSet, NATIVE_MINT, cOpen, c6Totals, List.foldlM,
      require, Bind.bind, Except.bind, Pure.pure, Except.pure, List.map,
      List.foldl]
  have h := c6_materiality_guard [cOpen] positionMapNone poolMapC tokenMapC
    priceMapOne cOpen "POOL" "POS" "PMINT" "OWNER" 10 (-10) 0 poolC c6Totals
    (by decide) rfl (by decide) (by decide) hTotals (by decide)
  exact ⟨h.1, by simpa [analyzePositions] using h.2 [] []⟩

/-- Claim C7: a per-position instruction list with zero open events, more
than one open event, or more than one close event makes `analyzePosition`
fail (no summary is produced), and `analyzePositions` drops that position
from the result set while analysing all other positions in the batch
unchanged. -/
theorem c7_sequence_guard (instructions : List DecodedInstruction)
    (positionMap : String → Option PositionAccount)
    (poolMap : String → Option WhirlpoolData)
    (tokenMap : String → Option Token)
    (priceMap : String → Option ℚ)
    (h : (instructions.filter (·.isOpenPosition)).length ≠ 1 ∨
      1 < (instructions.filter (·.isClosePosition)).length) :
    (analyzePosition instructions positionMap poolMap tokenMap priceMap).toOption = none ∧
    ∀ pre post,
      analyzePositions (pre ++ instructions :: post) positionMap poolMap tokenMap priceMap =
        analyzePositions pre positionMap poolMap tokenMap priceMap ++
          analyzePositions post positionMap poolMap tokenMap priceMap := by
  have hErr : ∃ e, analyzePosition instructions positionMap poolMap tokenMap priceMap =
      .error e := by
    unfold analyzePosition
    cases hF : instructions.filter (·.isOpenPosition) with
    | nil => exact ⟨_, rfl⟩
    | cons o tail =>
      cases tail with
      | cons o2 tail2 => exact ⟨_, rfl⟩
      | nil =>
        have hlen : (instructions.filter (·.isOpenPosition)).length = 1 := by
          rw [hF]; rfl
        rcases h with h1 | h2
        · exact absurd hlen h1
        · cases hD : o.data with
          | openPosition wp pos pm ow tU tL rf =>
            simp only [hD, if_neg (not_le.mpr h2)]
            exact ⟨_, rfl⟩
          | _ => simp only [hD]; exact ⟨_, rfl⟩
  obtain ⟨e, hErr⟩ := hErr
  exact ⟨by rw [hErr]; rfl, fun pre post =>
    analyzePositions_drop positionMap poolMap tokenMap priceMap instructions
      pre post e hErr⟩

/-- Claim C7 witness: the empty instruction list (zero open events) produces
no summary and is excluded from the batch output. -/
theorem c7_witness :
    (analyzePosition ([] : List DecodedInstruction) positionMapNone poolMapC
        tokenMapC priceMapOne).toOption = none ∧
    analyzePositions [[]] positionMapNone poolMapC tokenMapC priceMapOne = [] := by
  have h := c7_sequence_guard [] positionMapNone poolMapC tokenMapC priceMapOne
    (Or.inl (by decide))
  exact ⟨h.1, by simpa [analyzePositions] using h.2 [] []⟩

/-! ### Claim C8 — forward scan for token-transfer amounts -/

/-- Characterization of the scanning loop, by induction on the remaining
length: a successful scan from position `i` returns the first parsed
`spl-token` transfer at or after `i` (with its amount and index, and nothing
before it in the scanned range is a transfer), and a `none` result means no
position at or after `i` holds a transfer. -/
theorem nextAux_spec_fuel (d : Nat) : ∀ (instructions : List GatheredIx) (i : Nat),
    instructions.length - i ≤ d →
    (∀ a j, nextTokenTransferAmountAux instructions i = .ok (some (a, j)) →
      i ≤ j ∧ (∃ ix, instructions[j]? = some ix ∧ isTokenTransfer ix = true ∧
        transferAmount ix = some a) ∧
      ∀ k ix, i ≤ k → k < j → instructions[k]? = some ix → isTokenTransfer ix = false) ∧
    (nextTokenTransferAmountAux instructions i = .ok none →
      ∀ k ix, i ≤ k → instructions[k]? = some ix → isTokenTransfer ix = false) := by
  induction d with
  | zero =>
    intro instructions i hd
    have hlen : instructions.length ≤ i := by omega
    rw [nextTokenTransferAmountAux] at *
    rw [dif_neg (by omega : ¬ i < instructions.length)]
    constructor
    · intro a j h
      simp at h
    · intro _ k ix hik hk
      rw [List.getElem?_eq_none (by omega)] at hk
      exact absurd hk (by simp)
  | succ d ih =>
    intro instructions i hd
    by_cases hi : i < instructions.length
    · rw [nextTokenTransferAmountAux, dif_pos hi]
      simp only
      by_cases hT : isTokenTransfer (instructions.get ⟨i, hi⟩)
      · rw [if_pos hT]
        cases hA : transferAmount (instructions.get ⟨i, hi⟩) with
        | some a =>
          constructor
          · intro a' j h
            simp only [Except.ok.injEq, Option.some.injEq, Prod.mk.injEq] at h
            obtain ⟨ha, hj⟩ := h
            subst ha; subst hj
            refine ⟨le_refl i, ⟨instructions.get ⟨i, hi⟩, ?_, hT, hA⟩, ?_⟩
            · rw [List.getElem?_eq_getElem hi, List.get_eq_getElem]
            · intro k ix hik hki
              omega
          · intro h
            simp at h
        | none =>
          constructor
          · intro a' j h; simp at h
          · intro h; simp at h
      · rw [if_neg hT]
        have ihs := ih instructions (i + 1) (by omega)
        constructor
        · intro a j h
          obtain ⟨hij, hw, hmin⟩ := ihs.1 a j h
          refine ⟨by omega, hw, ?_⟩
          intro k ix hik hki hk
          rcases Nat.eq_or_lt_of_le hik with hik2 | hik2
          · subst hik2
            rw [List.getElem?_eq_getElem hi] at hk
            simp only [Option.some.injEq] at hk
            subst hk
            simp only [List.get_eq_getElem] at hT
            simpa using hT
          · exact hmin k ix (by omega) hki hk
        · intro h k ix hik hk
          rcases Nat.eq_or_lt_of_le hik with hik2 | hik2
          · subst hik2
            rw [List.getElem?_eq_getElem hi] at hk
            simp only [Option.some.injEq] at hk
            subst hk
            simp only [List.get_eq_getElem] at hT
            simpa using hT
          · exact ihs.2 h k ix (by omega) hk
    · rw [nextTokenTransferAmountAux, dif_neg hi]
      constructor
      · intro a j h; simp at h
      · intro _ k ix hik hk
        rw [List.getElem?_eq_none (by omega)] at hk
        exact absurd hk (by simp)

/-- Characterization of `nextTokenTransferAmount index instructions`: the
returned transfer sits strictly after `index`, is a parsed `spl-token`
transfer with the returned amount, and no sibling strictly between `index`
and it is a transfer (first match wins); a `none` result means no sibling
after `index` is a transfer. -/
theorem nextTTA_spec (index : Nat) (l : List GatheredIx) :
    (∀ a j, nextTokenTransferAmount index l = .ok (some (a, j)) →
      index < j ∧ (∃ ix, l[j]? = some ix ∧ isTokenTransfer ix = true ∧
        transferAmount ix = some a) ∧
      ∀ k ix, index < k → k < j → l[k]? = some ix → isTokenTransfer ix = false) ∧
    (nextTokenTransferAmount index l = .ok none →
      ∀ k ix, index < k → l[k]? = some ix → isTokenTransfer ix = false) := by
  have base := nextAux_spec_fuel l.length l (index + 1) (by omega)
  constructor
  · intro a j h
    obtain ⟨hij, hw, hmin⟩ := base.1 a j h
    exact ⟨by omega, hw, fun k ix hik hkj hk => hmin k ix (by omega) hkj hk⟩
  · intro h k ix hik hk
    exact base.2 h k ix (by omega) hk

/-- Claim C8: the decoder takes amounts from the first token transfer found
by scanning the sibling list linearly starting immediately after the current
index (first match wins, sibling order preserved); a dual-token decode
(`decodeIncreaseLiquidity`) consumes two transfers in sibling order, the
first as the token A amount and the second, found strictly after the first's
index, as the token B amount; and when no transfer is found the decode of
that instruction fails. -/
theorem c8_decoder_scan (index : Nat) (l : List GatheredIx) :
    (∀ a j, nextTokenTransferAmount index l = .ok (some (a, j)) →
      index < j ∧ (∃ ix, l[j]? = some ix ∧ isTokenTransfer ix = true ∧
        transferAmount ix = some a) ∧
      ∀ k ix, index < k → k < j → l[k]? = some ix → isTokenTransfer ix = false) ∧
    (nextTokenTransferAmount index l = .ok none →
      ∀ k ix, index < k → l[k]? = some ix → isTokenTransfer ix = false) ∧
    (∀ accounts data r, decodeIncreaseLiquidity accounts data index l = .ok r →
      ∃ j1 j2, nextTokenTransferAmount index l = .ok (some (r.tokenAIn, j1)) ∧
        nextTokenTransferAmount j1 l = .ok (some (r.tokenBIn, j2)) ∧
        index < j1 ∧ j1 < j2) ∧
    (∀ accounts data, nextTokenTransferAmount index l = .ok none →
      (decodeIncreaseLiquidity accounts data index l).toOption = none) := by
  refine ⟨(nextTTA_spec index l).1, (nextTTA_spec index l).2, ?_, ?_⟩
  · intro accounts data r h
    simp only [decodeIncreaseLiquidity, exceptBind_ok, require_ok] at h
    obtain ⟨wa, hwa, pa, hpa, la, hla, cur, hcur, mA, hmA, mB, hmB,
      ft, hft, ⟨aIn, j1⟩, hreq1, st, hst, ⟨bIn, j2⟩, hreq2, hok⟩ := h
    simp only [Except.ok.injEq] at hok
    subst hok
    subst hreq1
    subst hreq2
    simp only at hst
    refine ⟨j1, j2, hft, hst, ?_, ?_⟩
    · exact ((nextTTA_spec index l).1 aIn j1 hft).1
    · exact ((nextTTA_spec j1 l).1 bIn j2 hst).1
  · intro accounts data hNone
    unfold decodeIncreaseLiquidity
    simp only [require, Bind.bind, Except.bind, hNone]
    repeat' split
    all_goals simp [Except.toOption]

/-- Claim C8 witness: a concrete increase-liquidity instruction with two
transfer siblings (amount 5 at index 1, amount 7 at index 3, an unrelated
parsed sibling between them) decodes successfully, taking 5 as the token A
amount and 7 — found strictly after index 1 — as the token B amount. -/
theorem c8_witness :
    decodeIncreaseLiquidity c8Accounts ⟨some 100⟩ 0 c8Siblings = .ok c8Result ∧
    ∃ j1 j2, nextTokenTransferAmount 0 c8Siblings = .ok (some (c8Result.tokenAIn, j1)) ∧
      nextTokenTransferAmount j1 c8Siblings = .ok (some (c8Result.tokenBIn, j2)) ∧
      0 < j1 ∧ j1 < j2 := by
  have h : decodeIncreaseLiquidity c8Accounts ⟨some 100⟩ 0 c8Siblings = .ok c8Result := by
    simp +decide [decodeIncreaseLiquidity, nextTokenTransferAmount,
      nextTokenTransferAmountAux, reduceTokenMintFromAccount, require,
      Bind.bind, Except.bind, Pure.pure, Except.pure, c8Accounts, c8Siblings,
      c8Result, isTokenTransfer, transferAmount]
    rfl
  exact ⟨h, (c8_decoder_scan 0 c8Siblings).2.2.1 c8Accounts ⟨some 100⟩ c8Result h⟩

/-! ### Claim C5 — the rent lifecycle nets to zero -/

/-- A successful ledger step changes `paidRent` by exactly the event's rent
term: plus the rent fee's fiat value for an open, minus the reclaimed rent's
fiat value for a close, zero otherwise. -/
theorem ledgerStep_paidRent (env : LedgerEnv) (st : LedgerState)
    (ix : DecodedInstruction) (st' : LedgerState)
    (h : ledgerStep env st ix = .ok st') :
    st'.paidRent = st.paidRent + rentTerm env ix := by
  simp only [ledgerStep, exceptBind_ok, require_ok] at h
  obtain ⟨ps, hps, pa, hpa, pb, hpb, h⟩ := h
  cases hD : ix.data with
  | openPosition wp pos pm ow tU tL rentFee =>
    rw [hD] at h
    simp only [Except.ok.injEq] at h
    rw [← h]
    simp [rentTerm, hD, hps]
  | closePosition pos reclaimedRent =>
    rw [hD] at h
    simp only [Except.ok.injEq] at h
    rw [← h]
    simp [rentTerm, hD, hps]
    ring
  | increaseLiquidity wp pos liq mA mB a b =>
    rw [hD] at h
    simp only [Except.ok.injEq] at h
    rw [← h]
    simp [rentTerm, hD]
  | decreaseLiquidity wp pos liq mA mB a b =>
    rw [hD] at h
    simp only [Except.ok.injEq] at h
    rw [← h]
    simp [rentTerm, hD]
  | collectFees wp pos mA mB fa fb =>
    rw [hD] at h
    simp only [Except.ok.injEq] at h
    rw [← h]
    simp [rentTerm, hD]
  | collectReward wp pos ri rm ra =>
    rw [hD] at h
    simp only [exceptBind_ok, require_ok, Except.ok.injEq] at h
    obtain ⟨rt, hrt, rp, hrp, h⟩ := h
    rw [← h]
    simp [rentTerm, hD]

/-- A successful ledger pass accumulates into `paidRent` exactly the sum of
the per-event rent terms. -/
theorem foldlM_paidRent (env : LedgerEnv) (l : List DecodedInstruction) :
    ∀ (s s' : LedgerState), List.foldlM (ledgerStep env) s l = .ok s' →
      s'.paidRent = s.paidRent + (l.map (rentTerm env)).sum := by
  induction l with
  | nil =>
    intro s s' h
    simp only [List.foldlM_nil] at h
    cases h
    simp
  | cons x xs ih =>
    intro s s' h
    rw [List.foldlM_cons, exceptBind_ok] at h
    obtain ⟨s1, hstep, hrest⟩ := h
    rw [ih s1 s' hrest, ledgerStep_paidRent env s x s1 hstep]
    simp [List.map_cons, List.sum_cons]
    ring

/-- Events other than open and close contribute nothing to `paidRent`. -/
theorem rentTerm_eq_zero (env : LedgerEnv) (ix : DecodedInstruction)
    (h : isRentEvent ix = false) : rentTerm env ix = 0 := by
  unfold isRentEvent DecodedInstruction.isOpenPosition DecodedInstruction.isClosePosition at h
  cases hD : ix.data <;> rw [hD] at h <;> simp_all [rentTerm, hD]

/-- The sum of the rent terms over a list equals the sum over its open and
close events only. -/
theorem rentDelta_filter (env : LedgerEnv) (l : List DecodedInstruction) :
    (l.map (rentTerm env)).sum = ((l.filter isRentEvent).map (rentTerm env)).sum := by
  induction l with
  | nil => simp
  | cons x xs ih =>
    cases hR : isRentEvent x with
    | true => simp [List.filter_cons, hR, ih]
    | false => simp [List.filter_cons, hR, ih, rentTerm_eq_zero env x hR]

/-- Claim C5: for every event sequence whose only rent events are one open
paying rent fee `R` and one close reclaiming the same `R`, when the SOL price
at the open's block time equals the SOL price at the close's block time, a
successful accounting pass reports a net `paidRent` of exactly zero. -/
theorem c5_rent_lifecycle (instructions : List DecodedInstruction)
    (pool : WhirlpoolData) (tokenMap : String → Option Token)
    (priceMap : String → Option ℚ) (totals : LedgerTotals)
    (o c : DecodedInstruction) (wp posK pmK owK pos2 : String)
    (tU tL R : Int) (p : ℚ)
    (hFilter : instructions.filter isRentEvent = [o, c])
    (hO : o.data = .openPosition wp posK pmK owK tU tL R)
    (hC : c.data = .closePosition pos2 R)
    (hPO : priceMap (priceKey NATIVE_MINT (some o.blockTime)) = some p)
    (hPC : priceMap (priceKey NATIVE_MINT (some c.blockTime)) = some p)
    (hTotals : analyzeInstructions instructions pool tokenMap priceMap = .ok totals) :
    totals.paidRent = 0 := by
  simp only [analyzeInstructions, exceptBind_ok, require_ok] at hTotals
  obtain ⟨solToken, hSol, tokenA, hA, tokenB, hB, st, hLoop, cpa, hcpa, cpb,
    hcpb, hok⟩ := hTotals
  simp only [Except.ok.injEq] at hok
  subst hok
  show st.paidRent = 0
  rw [ledgerLoop] at hLoop
  have hSum := foldlM_paidRent ⟨solToken, tokenA, tokenB, tokenMap, priceMap⟩
    (instructions.insertionSort blockTimeOrder) initialLedgerState st hLoop
  have hmap := List.Perm.sum_eq
    ((List.perm_insertionSort blockTimeOrder instructions).map
      (rentTerm ⟨solToken, tokenA, tokenB, tokenMap, priceMap⟩))
  rw [hSum, hmap, rentDelta_filter, hFilter]
  simp [rentTerm, hO, hC, hPO, hPC, initialLedgerState]

/-- Claim C5 witness: a concrete open (rent fee 5) and close (reclaimed rent
5) at equal SOL prices account successfully with a net paid rent of zero. -/
theorem c5_witness :
    analyzeInstructions [c5Open, c5Close] poolC tokenMapC priceMapOne = .ok c5Totals ∧
      c5Totals.paidRent = 0 := by
  have hTotals : analyzeInstructions [c5Open, c5Close] poolC tokenMapC priceMapOne
      = .ok c5Totals := by
    norm_num +decide [analyzeInstructions, ledgerLoop, ledgerStep,
      initialLedgerState, List.insertionSort, List.orderedInsert,
      blockTimeOrder, tokenMapC, poolC, priceMapOne, priceKey,
      convertToUiAmount, mapSet, NATIVE_MINT, c5Open, c5Close, c5Totals,
      List.foldlM, require, Bind.bind, Except.bind, Pure.pure, Except.pure,
      List.map, List.foldl]
  exact ⟨hTotals, c5_rent_lifecycle [c5Open, c5Close] poolC tokenMapC
    priceMapOne c5Totals c5Open c5Close "POOL" "POS" "PMINT" "OWNER" "POS"
    10 (-10) 5 1 (by decide) rfl rfl rfl rfl hTotals⟩

end Profitability
